import Mathlib

/-!
Verification of the PancakePainter paper.js utility helpers
(`module.exports = function(paper) { utils = { ... } }`).

Shallow embedding conventions:
* JavaScript numbers are modelled as rationals (`ℚ`); `NaN` is modelled by
  `none` in an `Option ℚ` wherever the source can produce it.
* A JS value that is either an array of numbers or `null` is modelled as
  `Option (List (Option ℚ))` (outer `none` = `null`, inner `none` = `NaN`).
* `Math.floor` is `Int.floor`.
* Scene-graph items (paper.js paths) are abstract identifiers (`ℕ`); the
  external clipper library and the (possibly throwing) `flatten` operation
  are oracles supplied through an environment structure.
-/

namespace PancakePainter

/-! ## ColorSpace: string parsing (`colorStringToArray` and helpers) -/

/-- Whether character list `n` occurs at the head of `h`. -/
def leadMatch : List Char → List Char → Bool
  | [], _ => true
  | _ :: _, [] => false
  | a :: as, b :: bs => (a = b) && leadMatch as bs

/-- Whether character list `n` occurs anywhere inside `h`
(JS `h.indexOf(n) !== -1`). -/
def hasSub (n : List Char) : List Char → Bool
  | [] => n.isEmpty
  | b :: bs => leadMatch n (b :: bs) || hasSub n bs

/-- Whether character `c` occurs in the list (JS `indexOf(c) !== -1`). -/
def hasChar (c : Char) : List Char → Bool
  | [] => false
  | a :: t => (a = c) || hasChar c t

/-- JS `String.prototype.split(sep)` for a one-character separator: the empty
string yields `[""]`. -/
def splitOnChar (sep : Char) : List Char → List (List Char)
  | [] => [[]]
  | c :: t =>
    match splitOnChar sep t with
    | h :: r => if c = sep then [] :: h :: r else (c :: h) :: r
    | [] => [[c]]

/-- All characters of the list are decimal digits. -/
def allDigits : List Char → Bool
  | [] => true
  | c :: t => c.isDigit && allDigits t

/-- Digit list to number: the natural number denoted by a list of decimal
digits. -/
def digitsVal : List Char → ℕ
  | [] => 0
  | c :: t => digitsVal t + (c.toNat - '0'.toNat) * 10 ^ t.length

/-- The JS `Number(string)` conversion as used on the comma-separated pieces of
an `rgb(...)` string: surrounding spaces are ignored, the empty string is `0`,
a decimal literal with optional sign and fraction is its value, anything else
is `NaN` (modelled `none`).  (Hex/exponent literal forms are never produced by
this program and are not modelled.) -/
def jsNumber (l : List Char) : Option ℚ :=
  let t := ((l.dropWhile (· = ' ')).reverse.dropWhile (· = ' ')).reverse
  match t with
  | [] => some 0
  | c :: r =>
    let sign : ℚ := if c = '-' then -1 else 1
    let body := if c = '-' || c = '+' then r else c :: r
    let intPart := body.takeWhile Char.isDigit
    let rest2 := body.dropWhile Char.isDigit
    match rest2 with
    | [] => if intPart.isEmpty then none else some (sign * digitsVal intPart)
    | d :: frac =>
        if d = '.' && allDigits frac && !(intPart.isEmpty && frac.isEmpty) then
          some (sign * ((digitsVal intPart : ℚ) + (digitsVal frac : ℚ) / 10 ^ frac.length))
        else none

/-- Character class `[a-f\d]` of the source's hex regexes (case-insensitive). -/
def isHexChar (c : Char) : Bool :=
  c.isDigit || ('a' ≤ c && c ≤ 'f') || ('A' ≤ c && c ≤ 'F')

/-- Value of one hex digit (only meaningful on `isHexChar` characters). -/
def hexDigitVal (c : Char) : ℕ :=
  if c.isDigit then c.toNat - '0'.toNat
  else if 'a' ≤ c && c ≤ 'f' then c.toNat - 'a'.toNat + 10
  else c.toNat - 'A'.toNat + 10

/-- Value of a two-hex-digit pair, `parseInt(xy, 16)`. -/
def hexPairVal (a b : Char) : ℕ :=
  16 * hexDigitVal a + hexDigitVal b

/-- The shorthand-expansion `string.replace(/^#?([a-f\d])([a-f\d])([a-f\d])$/i,
r+r+g+g+b+b)`: a whole-string match of `#?` plus three hex digits is replaced
by the six doubled digits (the `#` is part of the match and is dropped);
anything else is left unchanged. -/
def expandShorthand (l : List Char) : List Char :=
  match l with
  | [h, a, b, c] =>
      if h = '#' && isHexChar a && isHexChar b && isHexChar c then [a, a, b, b, c, c] else l
  | [a, b, c] =>
      if isHexChar a && isHexChar b && isHexChar c then [a, a, b, b, c, c] else l
  | _ => l

/-- The full-form match `/^#?([a-f\d]{2})([a-f\d]{2})([a-f\d]{2})$/i.exec`:
an optional leading `#` followed by exactly six hex digits yields the three
`parseInt(_, 16)` channel values. -/
def execFullHex (l : List Char) : Option (ℕ × ℕ × ℕ) :=
  let core := match l with
    | h :: rest => if h = '#' then rest else l
    | [] => l
  match core with
  | [a, b, c, d, e, f] =>
      if isHexChar a && isHexChar b && isHexChar c && isHexChar d &&
         isHexChar e && isHexChar f then
        some (hexPairVal a b, hexPairVal c d, hexPairVal e f)
      else none
  | _ => none

/-- `colorStringToArray(string)`.  The argument is `none` for a non-string
input (the `typeof string !== 'string'` guard).  A string whose `indexOf('rgb')`
is not `-1` is sliced (`slice(4,-1)`), split on commas and `Number`-converted;
otherwise a string containing `#` goes through shorthand expansion and the
six-digit hex match; every other string yields `null`. -/
def colorStringToArray (input : Option String) : Option (List (Option ℚ)) :=
  match input with
  | none => none
  | some s =>
    if hasSub "rgb".toList s.toList then
      some ((splitOnChar ',' ((s.toList.drop 4).dropLast)).map jsNumber)
    else if hasChar '#' s.toList then
      (execFullHex (expandShorthand s.toList)).map
        (fun t => [some (t.1 : ℚ), some (t.2.1 : ℚ), some (t.2.2 : ℚ)])
    else none

/-! ## ColorSpace: RGB → HSL / YUV conversions -/

/-- In the JS source, `rgbToHSL`/`rgbToYUV` receive either a parsed color array
or `null`/`false`; channels are read at indices 0,1,2, and a missing or `NaN`
channel poisons every output component with `NaN`.  `cleanTriple` extracts the
three channel reads; it is `none` exactly when the JS result would be `false`
or all-`NaN`. -/
def cleanTriple (l : List (Option ℚ)) : Option (ℚ × ℚ × ℚ) :=
  match l.getD 0 none, l.getD 1 none, l.getD 2 none with
  | some r, some g, some b => some (r, g, b)
  | _, _, _ => none

/-- Core of `rgbToHSL` on a well-formed `[r,g,b]` triple (channels in
`[0,255]` are scaled to `[0,1]`; the JS `switch (max)` tests `case r` first,
then `case g`, then `case b`). -/
def hslCore (c : ℚ × ℚ × ℚ) : ℚ × ℚ × ℚ :=
  let r := c.1 / 255
  let g := c.2.1 / 255
  let b := c.2.2 / 255
  let mx := max r (max g b)
  let mn := min r (min g b)
  let l := (mx + mn) / 2
  if mx = mn then (0, 0, l)
  else
    let d := mx - mn
    let s := if l > 1/2 then d / (2 - mx - mn) else d / (mx + mn)
    let h :=
      if mx = r then (g - b) / d + (if g < b then 6 else 0)
      else if mx = g then (b - r) / d + 2
      else (r - g) / d + 4
    (h / 6, s, l)

/-- `rgbToHSL(color)`: `false` (here `none`) on a missing color, otherwise the
HSL triple. -/
def rgbToHSL (color : Option (ℚ × ℚ × ℚ)) : Option (ℚ × ℚ × ℚ) :=
  color.map hslCore

/-- Core of `rgbToYUV` on a well-formed `[r,g,b]` triple: BT.601 luma/chroma
with the chroma channels offset by `+128`, every component `Math.floor`ed. -/
def yuvCore (c : ℚ × ℚ × ℚ) : ℤ × ℤ × ℤ :=
  let r := c.1
  let g := c.2.1
  let b := c.2.2
  (⌊r * (299/1000) + g * (587/1000) + b * (114/1000)⌋,
   ⌊r * (-(168736/1000000)) + g * (-(331264/1000000)) + b * (1/2) + 128⌋,
   ⌊r * (1/2) + g * (-(418688/1000000)) + b * (-(81312/1000000)) + 128⌋)

/-- `rgbToYUV(color)`: `false` (here `none`) on a missing color, otherwise the
floored YUV triple. -/
def rgbToYUV (color : Option (ℚ × ℚ × ℚ)) : Option (ℤ × ℤ × ℤ) :=
  color.map yuvCore

/-! ## PaletteMatcher: palette construction and nearest-color matching -/

/-- One entry of the `snapColors` palette, as produced by `renderColorData`:
the original hex string, the parsed RGB array (or `null`), and the derived
HSL and YUV data.  A `none` in `hsl`/`yuv` covers both the JS `false` (parse
failed) and an all-`NaN` triple, which are observationally identical in
`snapColor` (a `NaN` distance never wins the comparison). -/
structure ColorData where
  key : String
  hex : String
  rgb : Option (List (Option ℚ))
  hsl : Option (ℚ × ℚ × ℚ)
  yuv : Option (ℤ × ℤ × ℤ)
deriving DecidableEq, Repr

/-- `renderColorData(colorHEX, name)`. -/
def renderColorData (colorHEX : String) (name : String) : ColorData :=
  let colorRGB := colorStringToArray (some colorHEX)
  { key := name
    hex := colorHEX
    rgb := colorRGB
    hsl := colorRGB.bind (fun arr => rgbToHSL (cleanTriple arr))
    yuv := colorRGB.bind (fun arr => rgbToYUV (cleanTriple arr)) }

/-- `snapColorSetup(colors)`: rebuild the `snapColors` palette, converting each
hex color in order (keys `color0`, `color1`, ...). -/
def snapColorSetup (colors : List String) : List ColorData :=
  colors.enum.map (fun p => renderColorData p.2 ("color" ++ toString p.1))

/-- Squared Euclidean YUV distance.  The source compares
`Math.sqrt(dx² + dy² + dz²) < lowestValue`; since `Real.sqrt` is strictly
monotone on nonnegatives, comparing the squared distance against the squared
threshold (the initial `lowestValue = 1000` becomes `1000² = 1000000`) selects
exactly the same indices, and keeps the embedding executable. -/
def sqDist (c s : ℤ × ℤ × ℤ) : ℤ :=
  (c.1 - s.1) ^ 2 + (c.2.1 - s.2.1) ^ 2 + (c.2.2 - s.2.2) ^ 2

/-- Distance between a palette entry's YUV data and the source YUV; `none`
models the `NaN` distance produced when either side is invalid (a `NaN`
never satisfies `distance < lowestValue`). -/
def distYUV (c s : Option (ℤ × ℤ × ℤ)) : Option ℤ :=
  match c, s with
  | some c, some s => some (sqDist c s)
  | _, _ => none

/-- The source's scan loop: state `(lowestIndex, lowestValue)`, updated when
`distance < lowestValue` (a `none`/`NaN` distance never updates). -/
def minLoopP : List (Option ℤ) → ℕ → ℕ × ℤ → ℕ × ℤ
  | [], _, acc => acc
  | d :: rest, i, acc =>
    match d with
    | some dv =>
        if dv < acc.2 then minLoopP rest (i + 1) (i, dv)
        else minLoopP rest (i + 1) acc
    | none => minLoopP rest (i + 1) acc

/-- `colors.slice(0, limit)` when a truthy `limit` is given, else all of
`snapColors`. -/
def slicedColors (snapColors : List ColorData) (limit : ℕ) : List ColorData :=
  if limit = 0 then snapColors else snapColors.take limit

/-- The dynamically-typed `source` argument of `snapColor`: a CSS string, an
already-parsed channel array, or `null`. -/
inductive SnapInput where
  | str (s : String)
  | arr (l : List (Option ℚ))
  | nullv
deriving DecidableEq

/-- Source normalization of `snapColor`: a string is parsed first; `null` or a
`NaN` first channel falls back to white (`#FFFFFF`); the result is converted
to YUV. -/
def snapSourceYUV (source : SnapInput) : Option (ℤ × ℤ × ℤ) :=
  let source1 : Option (List (Option ℚ)) :=
    match source with
    | .str s => colorStringToArray (some s)
    | .arr l => some l
    | .nullv => none
  let white := (colorStringToArray (some "#FFFFFF")).getD []
  let source2 : List (Option ℚ) :=
    match source1 with
    | none => white
    | some l => if (l.getD 0 none).isNone then white else l
  rgbToYUV (cleanTriple source2)

/-- `snapColor(source, limit)`: nearest palette index by YUV distance over the
first `limit` palette entries (all of them when `limit` is falsy). -/
def snapColor (snapColors : List ColorData) (source : SnapInput) (limit : ℕ) : ℕ :=
  let colors := slicedColors snapColors limit
  let s := snapSourceYUV source
  (minLoopP (colors.map (fun c => distYUV c.yuv s)) 0 (0, 1000000)).1

/-! ## DuplicationLayout: `getDuplicationLayout` -/

/-- A `width`/`height` bounds rectangle. -/
structure Bounds where
  width : ℚ
  height : ℚ
deriving DecidableEq, Repr

/-- Result of `getDuplicationLayout`: a scale and center positions.  `scale`
is an `Option`: `none` models the JS `NaN` scale produced when `count` is not
one of 1/2/4/8 (the `switch` leaves `fillPercent` undefined). -/
structure DupLayout where
  scale : Option ℚ
  positions : List (ℚ × ℚ)
deriving DecidableEq, Repr

/-- The source's `landscape` flag: `traceAspect < griddleAspect` with
aspect = height / width. -/
def isLandscape (traceBounds griddleBounds : Bounds) : Bool :=
  decide (traceBounds.height / traceBounds.width <
          griddleBounds.height / griddleBounds.width)

/-- `getDuplicationLayout(count, traceBounds, griddleBounds)`.  The guard
`if (!traceBounds.width) return out` fires on a zero width (the only falsy
rational); positions use quarter measurements `q` (and eighth measurements
`e` for count 8) of the target area; the final scale is the smaller of the
width-wise and height-wise fill scales. -/
def getDuplicationLayout (count : ℕ) (traceBounds griddleBounds : Bounds) : DupLayout :=
  if traceBounds.width = 0 then { scale := some 1, positions := [] }
  else
    let landscape := isLandscape traceBounds griddleBounds
    let qw := griddleBounds.width / 4
    let qh := griddleBounds.height / 4
    let fillAndPos : Option ℚ × List (ℚ × ℚ) :=
      match count with
      | 1 => (some 80, [(qw * 2, qh * 2)])
      | 2 =>
        (some 50,
         if landscape then
           [(qw * 2, qh), (qw * 2, qh * 3)]
         else
           [(qw, qh * 2), (qw * 3, qh * 2)])
      | 4 =>
        (some 35,
         [(qw, qh), (qw * 3, qh), (qw, qh * 3), (qw * 3, qh * 3)])
      | 8 =>
        (some 25,
         let ew := qw / 2
         let eh := qh / 2
         if landscape then
           [(qw, eh), (qw * 3, eh),
            (qw, eh * 3), (qw * 3, eh * 3),
            (qw, eh * 5), (qw * 3, eh * 5),
            (qw, eh * 7), (qw * 3, eh * 7)]
         else
           [(ew, qh), (ew * 3, qh), (ew * 5, qh), (ew * 7, qh),
            (ew, qh * 3), (ew * 3, qh * 3), (ew * 5, qh * 3), (ew * 7, qh * 3)])
      | _ => (none, [])
    match fillAndPos with
    | (some fp, pos) =>
      let f := fp / 100
      let sx := griddleBounds.width * f / traceBounds.width
      let sy := griddleBounds.height * f / traceBounds.height
      { scale := some (if sx < sy then sx else sy), positions := pos }
    | (none, pos) => { scale := none, positions := pos }

/-! ## PolygonOffsetter: `offsetPath` and `destroyThinFeatures`

Scene-graph paths are abstract identifiers; a layer is the ordered list of its
children's identifiers.  The external collaborators are oracles:
`flattenThrows` says whether flattening a given path's geometry throws (the
`try/catch` around step 1-2), and `clipperOut` gives the identity of the
compound path built from the clipper's offset output, or `none` when the
offset output descales to an empty path string. -/

/-- Oracles for the external scene graph and clipper library. -/
structure OffsetEnv where
  flattenThrows : ℕ → Bool
  clipperOut : ℕ → ℚ → Option ℕ
  cloneOf : ℕ → ℕ

/-- `offsetPath(inPath, amount, flattenResolution, doReplace)` as a transformer
of the owning layer, returning the new layer plus the JS return value
(`some p` = a path reference, `none` = `false`).

* flatten throws: the temporary clone is created and removed (net no layer
  change), the error is logged, and the original `inPath` is returned.
* non-empty offset: the new compound path is inserted (new paper items join
  the active layer) and the original is removed — or replaced in place when
  `doReplace` — and the new path is returned.
* empty offset: the original is removed and `false` is returned.

The flatten resolution only affects geometry inside the oracles and is not a
parameter of the model. -/
def offsetPath (env : OffsetEnv) (layer : List ℕ) (inPath : ℕ) (amount : ℚ)
    (doReplace : Bool) : List ℕ × Option ℕ :=
  if env.flattenThrows inPath then
    (layer, some inPath)
  else
    match env.clipperOut inPath amount with
    | some inset =>
      if doReplace then
        (layer.map (fun x => if x = inPath then inset else x), some inset)
      else
        ((layer.erase inPath) ++ [inset], some inset)
    | none => (layer.erase inPath, none)

/-- The return value of `offsetPath`, which does not depend on the layer. -/
def offsetPathRet (env : OffsetEnv) (p : ℕ) (amount : ℚ) : Option ℕ :=
  if env.flattenThrows p then some p else env.clipperOut p amount

/-- `layer.addChild(mask)` where `mask` may be the `false` returned by
`offsetPath`: paper.js `Item.insertChild` ignores a falsy item
(`var res = item ? this.insertChildren(index, [item], _preserve) : null`),
so a `none` argument adds nothing; a path argument is moved to the end of
this layer's child list. -/
def addChildOpt (layer : List ℕ) (m : Option ℕ) : List ℕ :=
  match m with
  | some x => (layer.erase x) ++ [x]
  | none => layer

/-- `destroyThinFeatures(layer, amount, clone)`: for each of the layer's
children (snapshotted up front), optionally clone it (the clone joins the
layer), erode by `amount`; only when that yields a result, dilate back by
`amount` and `addChild` the result.  Returns the final layer together with
the list of children actually added by the `addChild` calls.
`dtfStep` is the body run for one child. -/
def dtfStep (env : OffsetEnv) (amount : ℚ) (clone : Bool)
    (st : List ℕ × List ℕ) (item : ℕ) : List ℕ × List ℕ :=
  let cur := if clone then st.1 ++ [env.cloneOf item] else st.1
  let mask0 := if clone then env.cloneOf item else item
  match offsetPath env cur mask0 (-amount) false with
  | (cur1, none) => (cur1, st.2)
  | (cur1, some m1) =>
    let r2 := offsetPath env cur1 m1 amount false
    (addChildOpt r2.1 r2.2,
     match r2.2 with
     | some m2 => st.2 ++ [m2]
     | none => st.2)

/-- The whole `destroyThinFeatures` loop over the snapshotted children. -/
def destroyThinFeatures (env : OffsetEnv) (layer : List ℕ) (amount : ℚ)
    (clone : Bool) : List ℕ × List ℕ :=
  layer.foldl (dtfStep env amount clone) (layer, [])

/-! ## PaletteMatcher: `autoColor` -/

/-- A drawable item as `autoColor` observes it: optional stroke and fill
colors (a paper `Color` is represented by its RGB triple — `toCSS` followed
by `colorStringToArray` is the identity on this representation), the stroke
width, and the `item.data` metadata (`color` index and `fill` flag, both
initially undefined). -/
structure PaperItem where
  strokeColor : Option (ℚ × ℚ × ℚ)
  fillColor : Option (ℚ × ℚ × ℚ)
  strokeWidth : ℚ
  dataColor : Option ℕ
  dataFill : Option Bool
deriving DecidableEq, Repr

/-- The color assigned from `t.snapColors[i].color.HEX`: the paper `Color`
built from the entry's hex string, i.e. the parse of that hex (out-of-range
indices, never reached on the palettes the source runs with, give `none`). -/
def entryColor (pal : List ColorData) (i : ℕ) : Option (ℚ × ℚ × ℚ) :=
  (pal.get? i).bind (fun e => e.rgb.bind cleanTriple)

/-- The `SnapInput` for an item color: `item.strokeColor.toCSS()` parsed back
is the color's own RGB triple. -/
def colorInput (c : ℚ × ℚ × ℚ) : SnapInput :=
  .arr [some c.1, some c.2.1, some c.2.2]

/-- The per-item body of `autoColor`'s loop: match and set the stroke color,
then the fill color (each recording `data.color`); in outline mode a filled
item also produces the stroke-only darker duplicate (cloned from the
already-recolored item, stroke at `colorIndex + 1`, width 5, no fill). -/
def autoColorStep (pal : List ColorData) (limit : ℕ) (outline : Bool)
    (item0 : PaperItem) : PaperItem × Option PaperItem :=
  let item1 :=
    match item0.strokeColor with
    | none => item0
    | some c =>
      let colorIndex := snapColor pal (colorInput c) limit
      { item0 with strokeColor := entryColor pal colorIndex
                   dataColor := some colorIndex }
  match item1.fillColor with
  | none => (item1, none)
  | some c =>
    let colorIndex := snapColor pal (colorInput c) limit
    let item2 := { item1 with fillColor := entryColor pal colorIndex
                              dataColor := some colorIndex
                              dataFill := some true }
    if outline then
      let outlineItem :=
        { item2 with strokeColor := entryColor pal (colorIndex + 1)
                     strokeWidth := 5
                     fillColor := none
                     dataFill := some false
                     dataColor := some (colorIndex + 1) }
      (item2, some outlineItem)
    else (item2, none)

/-- `autoColor(layer, limit, outline)`: in outline mode the limit is forced to
`snapColors.length - 1`; each child is recolored in place while outline
duplicates are collected, and the collected outlines are appended to the
layer after the loop.  `autoColorFold` is the loop body (recolored children
accumulate on the left, outline duplicates on the right). -/
def autoColorFold (pal : List ColorData) (limit : ℕ) (outline : Bool)
    (acc : List PaperItem × List PaperItem) (item : PaperItem) :
    List PaperItem × List PaperItem :=
  let r := autoColorStep pal limit outline item
  (acc.1 ++ [r.1],
   match r.2 with
   | some o => acc.2 ++ [o]
   | none => acc.2)

/-- The whole `autoColor` pass: loop, then append the collected outlines. -/
def autoColor (pal : List ColorData) (layer : List PaperItem) (limit0 : ℕ)
    (outline : Bool) : List PaperItem :=
  let limit := if outline then pal.length - 1 else limit0
  let res := layer.foldl (autoColorFold pal limit outline) ([], [])
  res.1 ++ res.2

/-! ## Helper lemmas -/

/-- The source's `a < b ? a : b` agrees with `min`. -/
theorem ite_lt_eq_min (a b : ℚ) : (if a < b then a else b) = min a b := by
  rcases lt_trichotomy a b with h | h | h
  · simp [h, min_def, le_of_lt h]
  · simp [h]
  · simp [not_lt_of_gt h, min_def, le_of_lt h]

/-! ## Claim theorems: DuplicationLayout -/

/-- Claim C7: for every count and area bounds, a zero (falsy) trace width makes
`getDuplicationLayout` return scale 1 and an empty position list, before any
aspect or scale division is computed. -/
theorem getDuplicationLayout_degenerate (count : ℕ) (h : ℚ) (g : Bounds) :
    getDuplicationLayout count ⟨0, h⟩ g = { scale := some 1, positions := [] } := by
  simp [getDuplicationLayout]

/-- Claim C6: for counts 1/2/4/8 the returned scale is
`min (areaWidth * fillPercent / traceWidth) (areaHeight * fillPercent / traceHeight)`
with fill percentages 0.8 / 0.5 / 0.35 / 0.25, and on a 100×100 trace placed
in a 1000×500 area with count 1 the result is exactly the area's center
(500, 250) at scale 4. -/
theorem getDuplicationLayout_scale_spec (t g : Bounds)
    (hw : t.width ≠ 0) (hh : t.height ≠ 0) :
    ((getDuplicationLayout 1 t g).scale =
      some (min (g.width * (80/100) / t.width) (g.height * (80/100) / t.height))) ∧
    ((getDuplicationLayout 2 t g).scale =
      some (min (g.width * (50/100) / t.width) (g.height * (50/100) / t.height))) ∧
    ((getDuplicationLayout 4 t g).scale =
      some (min (g.width * (35/100) / t.width) (g.height * (35/100) / t.height))) ∧
    ((getDuplicationLayout 8 t g).scale =
      some (min (g.width * (25/100) / t.width) (g.height * (25/100) / t.height))) ∧
    getDuplicationLayout 1 ⟨100, 100⟩ ⟨1000, 500⟩ =
      { scale := some 4, positions := [(500, 250)] } := by
  refine ⟨?_, ?_, ?_, ?_, ?_⟩
  · simp [getDuplicationLayout, hw, ite_lt_eq_min]
  · cases hl : isLandscape t g <;> simp [getDuplicationLayout, hw, hl, ite_lt_eq_min]
  · simp [getDuplicationLayout, hw, ite_lt_eq_min]
  · cases hl : isLandscape t g <;> simp [getDuplicationLayout, hw, hl, ite_lt_eq_min]
  · simp [getDuplicationLayout, isLandscape]
    norm_num

/-- Witness for C6 at `traceBounds = 100×100`, `areaBounds = 1000×500`. -/
theorem getDuplicationLayout_scale_spec_witness :
    (getDuplicationLayout 1 ⟨100, 100⟩ ⟨1000, 500⟩).scale =
      some (min ((1000 : ℚ) * (80/100) / 100) ((500 : ℚ) * (80/100) / 100)) :=
  (getDuplicationLayout_scale_spec ⟨100, 100⟩ ⟨1000, 500⟩
    (by norm_num) (by norm_num)).1

/-- Claim C2 (amended): the source is classified landscape iff
`traceAspect < areaAspect` (aspect = height/width); for count 2 a landscape
source yields the two copies stacked vertically (same x, different y:
center-top and center-bottom), while a portrait source yields them side by
side (different x, same y: left-middle and right-middle). -/
theorem getDuplicationLayout_orientation (t g : Bounds)
    (hw : t.width ≠ 0) (hgw : 0 < g.width) (hgh : 0 < g.height) :
    (isLandscape t g = true ↔ t.height / t.width < g.height / g.width) ∧
    (isLandscape t g = true →
      ∃ x y₁ y₂, (getDuplicationLayout 2 t g).positions = [(x, y₁), (x, y₂)] ∧ y₁ ≠ y₂) ∧
    (isLandscape t g = false →
      ∃ x₁ x₂ y, (getDuplicationLayout 2 t g).positions = [(x₁, y), (x₂, y)] ∧ x₁ ≠ x₂) := by
  refine ⟨by simp [isLandscape], ?_, ?_⟩
  · intro hl
    refine ⟨g.width / 4 * 2, g.height / 4, g.height / 4 * 3, ?_, ?_⟩
    · simp [getDuplicationLayout, hw, hl]
    · intro h
      nlinarith [h]
  · intro hl
    refine ⟨g.width / 4, g.width / 4 * 3, g.height / 4 * 2, ?_, ?_⟩
    · simp [getDuplicationLayout, hw, hl]
    · intro h
      nlinarith [h]

/-- Witness for C2 (amended): a 200×100 trace in a 100×100 area is landscape
and its two copies share an x coordinate. -/
theorem getDuplicationLayout_orientation_witness :
    ∃ x y₁ y₂, (getDuplicationLayout 2 ⟨200, 100⟩ ⟨100, 100⟩).positions
      = [(x, y₁), (x, y₂)] ∧ y₁ ≠ y₂ :=
  (getDuplicationLayout_orientation ⟨200, 100⟩ ⟨100, 100⟩
      (by norm_num) (by norm_num) (by norm_num)).2.1
    (by simp [isLandscape]; norm_num)

/-- Counterexample to C2 as stated: with a landscape source (200×100 trace in
a 100×100 area: aspect 1/2 < 1) and count 2, the two computed positions are
(50, 25) and (50, 75) — they share the x coordinate and differ in y, so the
copies are not "side by side (positions differing in x at the same y)". -/
theorem getDuplicationLayout_claim_cex :
    isLandscape ⟨200, 100⟩ ⟨100, 100⟩ = true ∧
    (getDuplicationLayout 2 ⟨200, 100⟩ ⟨100, 100⟩).positions
      = [((50 : ℚ), (25 : ℚ)), (50, 75)] ∧
    ((50 : ℚ), (25 : ℚ)).1 = ((50 : ℚ), (75 : ℚ)).1 ∧
    ((50 : ℚ), (25 : ℚ)).2 ≠ ((50 : ℚ), (75 : ℚ)).2 := by
  have hl : isLandscape ⟨200, 100⟩ ⟨100, 100⟩ = true := by
    simp [isLandscape]; norm_num
  refine ⟨hl, ?_, rfl, by norm_num⟩
  simp [getDuplicationLayout, hl]
  norm_num

/-! ## Claim theorems: PolygonOffsetter -/

/-- Claim C1 (amended): when the flatten step throws, `offsetPath` removes only
the temporary clone, leaves the layer (and the original path's membership in
it) unchanged, and returns the original input path itself — a truthy result,
not absence; absence (`false`) together with removal of the original happens
exactly on an empty offset result. -/
theorem offsetPath_failure_modes (env : OffsetEnv) (layer : List ℕ) (p : ℕ)
    (amt : ℚ) (rep : Bool) :
    (env.flattenThrows p = true →
      offsetPath env layer p amt rep = (layer, some p)) ∧
    (env.flattenThrows p = false → env.clipperOut p amt = none →
      offsetPath env layer p amt rep = (layer.erase p, none)) := by
  constructor
  · intro h
    simp [offsetPath, h]
  · intro h h'
    simp [offsetPath, h, h']

/-- Environment whose flatten always throws. -/
def envAllThrow : OffsetEnv :=
  { flattenThrows := fun _ => true, clipperOut := fun _ _ => none, cloneOf := fun n => n }

/-- Environment whose offsets always come back empty. -/
def envAllEmpty : OffsetEnv :=
  { flattenThrows := fun _ => false, clipperOut := fun _ _ => none, cloneOf := fun n => n }

/-- Witness for C1 (amended) on both failure modes. -/
theorem offsetPath_failure_modes_witness :
    offsetPath envAllThrow [5] 5 1 false = ([5], some 5) ∧
    offsetPath envAllEmpty [5] 5 1 false = ([], none) :=
  ⟨(offsetPath_failure_modes envAllThrow [5] 5 1 false).1 rfl,
   by simpa using (offsetPath_failure_modes envAllEmpty [5] 5 1 false).2 rfl rfl⟩

/-- Counterexample to C1 as stated: on a path whose flatten throws, the
original path 7 is still in the returned layer and the returned value is the
original path itself (truthy), not absence. -/
theorem offsetPath_claim_cex :
    envAllThrow.flattenThrows 7 = true ∧
    offsetPath envAllThrow [7] 7 1 false = ([7], some 7) ∧
    (7 : ℕ) ∈ (offsetPath envAllThrow [7] 7 1 false).1 ∧
    (offsetPath envAllThrow [7] 7 1 false).2 = some 7 ∧
    some 7 ≠ (none : Option ℕ) := by
  refine ⟨rfl, ?_, ?_, ?_, by simp⟩ <;> simp [offsetPath, envAllThrow]

/-- The return value of `offsetPath` only depends on the oracles, not on the
layer contents. -/
theorem offsetPath_snd (env : OffsetEnv) (layer : List ℕ) (p : ℕ) (amt : ℚ)
    (rep : Bool) : (offsetPath env layer p amt rep).2 = offsetPathRet env p amt := by
  by_cases h : env.flattenThrows p
  · simp [offsetPath, offsetPathRet, h]
  · cases hc : env.clipperOut p amt <;>
      simp [offsetPath, offsetPathRet, h, hc] <;> cases rep <;> simp

/-- The per-child round trip recorded by `destroyThinFeatures`: erosion first,
and only a surviving erosion is dilated. -/
def roundTripResult (env : OffsetEnv) (amount : ℚ) (clone : Bool) (item : ℕ) :
    Option ℕ :=
  match offsetPathRet env (if clone then env.cloneOf item else item) (-amount) with
  | none => none
  | some m1 => offsetPathRet env m1 amount

/-- One `dtfStep` extends the added-children accumulator by exactly the
surviving round-trip result of its item. -/
theorem dtfStep_snd (env : OffsetEnv) (amount : ℚ) (clone : Bool)
    (st : List ℕ × List ℕ) (item : ℕ) :
    (dtfStep env amount clone st item).2 =
      st.2 ++ (roundTripResult env amount clone item).toList := by
  unfold dtfStep roundTripResult
  rcases he : offsetPath env (if clone then st.1 ++ [env.cloneOf item] else st.1)
      (if clone then env.cloneOf item else item) (-amount) false with ⟨cur1, r1⟩
  have he2 : r1 = offsetPathRet env (if clone then env.cloneOf item else item) (-amount) := by
    have := offsetPath_snd env (if clone then st.1 ++ [env.cloneOf item] else st.1)
      (if clone then env.cloneOf item else item) (-amount) false
    rw [he] at this
    exact this
  cases r1 with
  | none => simp [he, ← he2]
  | some m1 =>
      rw [← he2]
      cases hd : offsetPathRet env m1 amount with
      | none =>
          simp [he, offsetPath_snd env cur1 m1 amount false, hd]
      | some m2 =>
          simp [he, offsetPath_snd env cur1 m1 amount false, hd]

/-- Folding `dtfStep` appends one surviving round-trip result per child. -/
theorem dtfStep_foldl (env : OffsetEnv) (amount : ℚ) (clone : Bool) :
    ∀ (items : List ℕ) (st : List ℕ × List ℕ),
      (items.foldl (dtfStep env amount clone) st).2 =
        st.2 ++ items.filterMap (roundTripResult env amount clone)
  | [], st => by simp
  | item :: rest, st => by
      rw [List.foldl_cons, dtfStep_foldl env amount clone rest]
      rw [List.filterMap_cons]
      cases h : roundTripResult env amount clone item with
      | none =>
          have h2 := dtfStep_snd env amount clone st item
          rw [h] at h2
          simp at h2
          simp [h2]
      | some m =>
          have h2 := dtfStep_snd env amount clone st item
          rw [h] at h2
          simp at h2
          simp [h2]

/-- Claim C4: the children actually added back by `destroyThinFeatures` are
exactly the surviving dilation results of surviving erosions: a child whose
erosion yields absence contributes nothing (the whole round trip is absent),
and a child is added only when the dilation step produced a surviving shape
(paper.js's `addChild` ignores the falsy value produced by an absent
dilation, so an absent result is never added as a child). -/
theorem destroyThinFeatures_added (env : OffsetEnv) (layer : List ℕ)
    (amount : ℚ) (clone : Bool) :
    (destroyThinFeatures env layer amount clone).2 =
      layer.filterMap (roundTripResult env amount clone) := by
  unfold destroyThinFeatures
  rw [dtfStep_foldl]
  simp

/-! ## Claim theorems: PaletteMatcher (`autoColor`) -/

/-- Folding `autoColorFold` accumulates the recolored children on the left and
the outline duplicates, in order, on the right. -/
theorem autoColorFold_foldl (pal : List ColorData) (limit : ℕ) (outline : Bool) :
    ∀ (items : List PaperItem) (acc : List PaperItem × List PaperItem),
      items.foldl (autoColorFold pal limit outline) acc =
        (acc.1 ++ items.map (fun it => (autoColorStep pal limit outline it).1),
         acc.2 ++ items.filterMap (fun it => (autoColorStep pal limit outline it).2))
  | [], acc => by simp
  | item :: rest, acc => by
      rw [List.foldl_cons, autoColorFold_foldl pal limit outline rest]
      rw [List.map_cons, List.filterMap_cons]
      unfold autoColorFold
      cases h : (autoColorStep pal limit outline item).2 <;> simp [h]

/-- `autoColor` is the in-place recoloring of the children followed by the
appended outline duplicates. -/
theorem autoColor_eq (pal : List ColorData) (layer : List PaperItem)
    (limit0 : ℕ) (outline : Bool) :
    autoColor pal layer limit0 outline =
      layer.map (fun it =>
        (autoColorStep pal (if outline then pal.length - 1 else limit0) outline it).1) ++
      layer.filterMap (fun it =>
        (autoColorStep pal (if outline then pal.length - 1 else limit0) outline it).2) := by
  simp only [autoColor]
  rw [autoColorFold_foldl]
  simp

/-- The scan's final `lowestIndex` is either the initial one or the position of
some inspected entry. -/
theorem minLoopP_fst_bound :
    ∀ (l : List (Option ℤ)) (i : ℕ) (acc : ℕ × ℤ),
      (minLoopP l i acc).1 = acc.1 ∨
      ∃ j, j < l.length ∧ (minLoopP l i acc).1 = i + j
  | [], i, acc => Or.inl rfl
  | d :: rest, i, acc => by
      cases d with
      | none =>
          rcases minLoopP_fst_bound rest (i + 1) acc with h | ⟨j, hj, h⟩
          · exact Or.inl (by simpa [minLoopP] using h)
          · refine Or.inr ⟨j + 1, by simpa using Nat.succ_lt_succ hj, ?_⟩
            simp only [minLoopP]
            omega
      | some dv =>
          by_cases hlt : dv < acc.2
          · rcases minLoopP_fst_bound rest (i + 1) (i, dv) with h | ⟨j, hj, h⟩
            · refine Or.inr ⟨0, by simp, ?_⟩
              simp only [minLoopP, if_pos hlt]
              omega
            · refine Or.inr ⟨j + 1, by simpa using Nat.succ_lt_succ hj, ?_⟩
              simp only [minLoopP, if_pos hlt]
              omega
          · rcases minLoopP_fst_bound rest (i + 1) acc with h | ⟨j, hj, h⟩
            · exact Or.inl (by simpa [minLoopP, hlt] using h)
            · refine Or.inr ⟨j + 1, by simpa using Nat.succ_lt_succ hj, ?_⟩
              simp only [minLoopP, if_neg hlt]
              omega

/-- On a nonempty sliced palette, `snapColor` returns an index into the sliced
palette. -/
theorem snapColor_lt_length (pal : List ColorData) (source : SnapInput)
    (limit : ℕ) (hne : slicedColors pal limit ≠ []) :
    snapColor pal source limit < (slicedColors pal limit).length := by
  unfold snapColor
  rcases minLoopP_fst_bound
      ((slicedColors pal limit).map (fun c => distYUV c.yuv (snapSourceYUV source)))
      0 (0, 1000000) with h | ⟨j, hj, h⟩
  · rw [h]
    exact List.length_pos.2 hne
  · rw [h]
    simpa using hj

/-- Claim C5: with the outline flag set, `autoColor` forces the matching limit
to `paletteSize - 1` (the `limit` argument is irrelevant), recolors every
child in place and appends all outline duplicates after them, and for every
item with a fill color the outline duplicate is a stroke-only copy: stroke
color is the palette entry at `fillIndex + 1` (a valid palette index), stroke
width is the constant 5, the fill is removed, and the recorded color index is
`fillIndex + 1`. -/
theorem autoColor_outline_spec (pal : List ColorData) (layer : List PaperItem)
    (limit : ℕ) (hpal : 2 ≤ pal.length) :
    (∀ l₁ l₂ : ℕ, autoColor pal layer l₁ true = autoColor pal layer l₂ true) ∧
    autoColor pal layer limit true =
      layer.map (fun it => (autoColorStep pal (pal.length - 1) true it).1) ++
      layer.filterMap (fun it => (autoColorStep pal (pal.length - 1) true it).2) ∧
    (∀ it ∈ layer, ∀ c, it.fillColor = some c →
      ∃ o, (autoColorStep pal (pal.length - 1) true it).2 = some o ∧
        o.strokeColor = entryColor pal (snapColor pal (colorInput c) (pal.length - 1) + 1) ∧
        o.strokeWidth = 5 ∧
        o.fillColor = none ∧
        o.dataColor = some (snapColor pal (colorInput c) (pal.length - 1) + 1) ∧
        o.dataFill = some false ∧
        snapColor pal (colorInput c) (pal.length - 1) + 1 < pal.length) := by
  refine ⟨fun l₁ l₂ => by rw [autoColor_eq, autoColor_eq]; simp, ?_, ?_⟩
  · rw [autoColor_eq]
    simp
  · intro it hit c hc
    have hbound : snapColor pal (colorInput c) (pal.length - 1) + 1 < pal.length := by
      have h1 : pal.length - 1 ≠ 0 := by omega
      have h2 := snapColor_lt_length pal (colorInput c) (pal.length - 1)
        (by
          simp only [slicedColors, h1, if_false]
          intro hcontra
          have := congrArg List.length hcontra
          simp [List.length_take] at this
          omega)
      simp only [slicedColors, h1, if_false, List.length_take] at h2
      omega
    unfold autoColorStep
    cases hs : it.strokeColor <;>
      simp only [hs, hc, if_true] <;>
      exact ⟨_, rfl, rfl, rfl, rfl, rfl, rfl, hbound⟩

/-- A four-shade palette (the application's pancake shades). -/
def pancakeShades : List ColorData :=
  snapColorSetup ["#FFEA7E", "#E2BC15", "#A6801D", "#714A27"]

/-- An unstroked, filled sample item. -/
def sampleFillItem : PaperItem :=
  { strokeColor := none, fillColor := some (255, 255, 255), strokeWidth := 1
    dataColor := none, dataFill := none }

/-- Witness for C5 on the pancake-shade palette and a white-filled item. -/
theorem autoColor_outline_spec_witness :
    ∃ o, (autoColorStep pancakeShades (pancakeShades.length - 1) true sampleFillItem).2 = some o ∧
      o.strokeColor = entryColor pancakeShades
        (snapColor pancakeShades (colorInput (255, 255, 255)) (pancakeShades.length - 1) + 1) ∧
      o.strokeWidth = 5 ∧
      o.fillColor = none ∧
      o.dataColor = some
        (snapColor pancakeShades (colorInput (255, 255, 255)) (pancakeShades.length - 1) + 1) ∧
      o.dataFill = some false ∧
      snapColor pancakeShades (colorInput (255, 255, 255)) (pancakeShades.length - 1) + 1 <
        pancakeShades.length :=
  (autoColor_outline_spec pancakeShades [sampleFillItem] 0
      (by simp [pancakeShades, snapColorSetup])).2.2
    sampleFillItem (by simp) (255, 255, 255) rfl

/-- Claim C10: after `autoColor`, an item that had both a stroke and a fill
color carries a single recorded color index equal to the fill color's match:
the stroke match is recorded first and then overwritten by the fill match. -/
theorem autoColor_fill_overwrites_stroke (pal : List ColorData)
    (layer : List PaperItem) (limit0 : ℕ) (outline : Bool) (i : ℕ)
    (hi : i < layer.length) (sc fc : ℚ × ℚ × ℚ)
    (hs : (layer.get ⟨i, hi⟩).strokeColor = some sc)
    (hf : (layer.get ⟨i, hi⟩).fillColor = some fc) :
    ∃ hi' : i < (autoColor pal layer limit0 outline).length,
      ((autoColor pal layer limit0 outline).get ⟨i, hi'⟩).dataColor =
        some (snapColor pal (colorInput fc) (if outline then pal.length - 1 else limit0)) := by
  rw [autoColor_eq]
  have hlen : i < (layer.map (fun it =>
      (autoColorStep pal (if outline then pal.length - 1 else limit0) outline it).1)).length := by
    simpa using hi
  refine ⟨by simp; omega, ?_⟩
  rw [List.get_append _ hlen]
  rw [List.get_map]
  unfold autoColorStep
  rw [hs]
  have : ({ layer.get ⟨i, hi⟩ with
      strokeColor := entryColor pal
        (snapColor pal (colorInput sc) (if outline then pal.length - 1 else limit0))
      dataColor := some
        (snapColor pal (colorInput sc) (if outline then pal.length - 1 else limit0)) } :
      PaperItem).fillColor = some fc := by simpa using hf
  rw [this]
  cases outline <;> simp

/-- Witness for C10: a black-stroked, white-filled item on the pancake-shade
palette records the fill's match. -/
theorem autoColor_fill_overwrites_stroke_witness :
    ∃ hi' : 0 < (autoColor pancakeShades
        [{ strokeColor := some (0, 0, 0), fillColor := some (255, 255, 255),
           strokeWidth := 1, dataColor := none, dataFill := none }] 0 false).length,
      ((autoColor pancakeShades
        [{ strokeColor := some (0, 0, 0), fillColor := some (255, 255, 255),
           strokeWidth := 1, dataColor := none, dataFill := none }] 0 false).get ⟨0, hi'⟩).dataColor =
        some (snapColor pancakeShades (colorInput (255, 255, 255))
          (if false then pancakeShades.length - 1 else 0)) :=
  autoColor_fill_overwrites_stroke pancakeShades
    [{ strokeColor := some (0, 0, 0), fillColor := some (255, 255, 255),
       strokeWidth := 1, dataColor := none, dataFill := none }] 0 false 0
    (by norm_num) (0, 0, 0) (255, 255, 255) rfl rfl

/-! ## The scan loop's argmin invariant -/

/-- Full specification of the scan over a list of valid (non-`NaN`) distances:
the final `lowestValue` is a lower bound of the initial value and of every
scanned distance; the final state is either the initial one (nothing beat the
initial value) or the strictly-improving entry at the returned index; and
every entry strictly before the returned index is strictly larger than the
final value (which is how `<` breaks ties toward the lowest index). -/
theorem minLoopP_spec :
    ∀ (ql : List ℤ) (i li : ℕ) (lv : ℤ), li ≤ i →
      ((minLoopP (ql.map some) i (li, lv)).2 ≤ lv) ∧
      (∀ j (hj : j < ql.length),
        (minLoopP (ql.map some) i (li, lv)).2 ≤ ql.get ⟨j, hj⟩) ∧
      (((minLoopP (ql.map some) i (li, lv)).1 = li ∧
        (minLoopP (ql.map some) i (li, lv)).2 = lv) ∨
        ∃ j, ∃ hj : j < ql.length,
          (minLoopP (ql.map some) i (li, lv)).1 = i + j ∧
          (minLoopP (ql.map some) i (li, lv)).2 = ql.get ⟨j, hj⟩ ∧
          (minLoopP (ql.map some) i (li, lv)).2 < lv) ∧
      (∀ j (hj : j < ql.length), i + j < (minLoopP (ql.map some) i (li, lv)).1 →
        (minLoopP (ql.map some) i (li, lv)).2 < ql.get ⟨j, hj⟩)
  | [], i, li, lv => by
      intro _
      refine ⟨le_refl lv, ?_, Or.inl ⟨rfl, rfl⟩, ?_⟩ <;> intro j hj <;> simp at hj
  | d :: rest, i, li, lv => by
      intro hli
      by_cases hdlt : d < lv
      · have hred : minLoopP ((d :: rest).map some) i (li, lv) =
            minLoopP (rest.map some) (i + 1) (i, d) := by
          dsimp [minLoopP]
          rw [if_pos hdlt]
        obtain ⟨IH1, IH2, IH3, IH4⟩ := minLoopP_spec rest (i + 1) i d (Nat.le_succ i)
        rw [hred]
        refine ⟨le_of_lt (lt_of_le_of_lt IH1 hdlt), ?_, ?_, ?_⟩
        · intro j hj
          cases j with
          | zero => simpa using IH1
          | succ j' => simpa using IH2 j' (by simpa using Nat.lt_of_succ_lt_succ hj)
        · rcases IH3 with ⟨h1, h2⟩ | ⟨j, hj, h1, h2, h3⟩
          · exact Or.inr ⟨0, by simp, by omega, by simpa using h2, by rw [h2]; exact hdlt⟩
          · refine Or.inr ⟨j + 1, by simpa using Nat.succ_lt_succ hj, by omega, ?_, ?_⟩
            · simpa using h2
            · exact lt_trans h3 hdlt
        · intro j hj hlt
          cases j with
          | zero =>
              rcases IH3 with ⟨h1, h2⟩ | ⟨j', hj', h1, h2, h3⟩
              · omega
              · simpa using h3
          | succ j' =>
              have := IH4 j' (by simpa using Nat.lt_of_succ_lt_succ hj) (by omega)
              simpa using this
      · have hred : minLoopP ((d :: rest).map some) i (li, lv) =
            minLoopP (rest.map some) (i + 1) (li, lv) := by
          dsimp [minLoopP]
          rw [if_neg hdlt]
        obtain ⟨IH1, IH2, IH3, IH4⟩ :=
          minLoopP_spec rest (i + 1) li lv (le_trans hli (Nat.le_succ i))
        rw [hred]
        refine ⟨IH1, ?_, ?_, ?_⟩
        · intro j hj
          cases j with
          | zero => simpa using le_trans IH1 (le_of_not_lt hdlt)
          | succ j' => simpa using IH2 j' (by simpa using Nat.lt_of_succ_lt_succ hj)
        · rcases IH3 with ⟨h1, h2⟩ | ⟨j, hj, h1, h2, h3⟩
          · exact Or.inl ⟨h1, h2⟩
          · refine Or.inr ⟨j + 1, by simpa using Nat.succ_lt_succ hj, by omega, ?_, h3⟩
            simpa using h2
        · intro j hj hlt
          cases j with
          | zero =>
              rcases IH3 with ⟨h1, h2⟩ | ⟨j', hj', h1, h2, h3⟩
              · omega
              · simpa using lt_of_lt_of_le h3 (le_of_not_lt hdlt)
          | succ j' =>
              have := IH4 j' (by simpa using Nat.lt_of_succ_lt_succ hj) (by omega)
              simpa using this

/-! ## Range facts for YUV data -/

/-- A YUV triple derived from an in-range RGB color has all components in
`[0, 255]` (used to justify that every real color distance beats the scan's
initial `lowestValue`). -/
def yuvInRange : Option (ℤ × ℤ × ℤ) → Bool
  | some (y, u, v) =>
      decide (0 ≤ y ∧ y ≤ 255 ∧ 0 ≤ u ∧ u ≤ 255 ∧ 0 ≤ v ∧ v ≤ 255)
  | none => false

/-- `rgbToYUV` of an in-range RGB triple lands in `[0,255]³`: the luma
coefficients sum to 1 and each chroma coefficient pair sums to 1/2, so before
flooring the components lie in `[0,255]`, `[0.5,255.5]` and `[0.5,255.5]`. -/
theorem yuvCore_range (r g b : ℚ) (hr : 0 ≤ r ∧ r ≤ 255) (hg : 0 ≤ g ∧ g ≤ 255)
    (hb : 0 ≤ b ∧ b ≤ 255) : yuvInRange (some (yuvCore (r, g, b))) = true := by
  obtain ⟨hr0, hr1⟩ := hr
  obtain ⟨hg0, hg1⟩ := hg
  obtain ⟨hb0, hb1⟩ := hb
  simp only [yuvInRange, yuvCore, decide_eq_true_eq]
  refine ⟨?_, ?_, ?_, ?_, ?_, ?_⟩
  · exact Int.le_floor.2 (by push_cast; nlinarith)
  · exact Int.lt_add_one_iff.1 (Int.floor_lt.2 (by push_cast; nlinarith))
  · exact Int.le_floor.2 (by push_cast; nlinarith)
  · exact Int.lt_add_one_iff.1 (Int.floor_lt.2 (by push_cast; nlinarith))
  · exact Int.le_floor.2 (by push_cast; nlinarith)
  · exact Int.lt_add_one_iff.1 (Int.floor_lt.2 (by push_cast; nlinarith))

/-- Squared distances are nonnegative. -/
theorem sqDist_nonneg (a c : ℤ × ℤ × ℤ) : 0 ≤ sqDist a c := by
  unfold sqDist
  positivity

/-- The squared distance between two in-range YUV triples is below the squared
initial `lowestValue` (`1000² = 1000000`), so a real color always beats the
scan's starting value. -/
theorem sqDist_lt_initial (a c : ℤ × ℤ × ℤ) (ha : yuvInRange (some a) = true)
    (hc : yuvInRange (some c) = true) : sqDist a c < 1000000 := by
  obtain ⟨a1, a2, a3⟩ := a
  obtain ⟨c1, c2, c3⟩ := c
  simp only [yuvInRange, decide_eq_true_eq] at ha hc
  obtain ⟨h1, h2, h3, h4, h5, h6⟩ := ha
  obtain ⟨k1, k2, k3, k4, k5, k6⟩ := hc
  have e1 : (a1 - c1) ^ 2 ≤ 255 ^ 2 := by nlinarith
  have e2 : (a2 - c2) ^ 2 ≤ 255 ^ 2 := by nlinarith
  have e3 : (a3 - c3) ^ 2 ≤ 255 ^ 2 := by nlinarith
  unfold sqDist
  nlinarith

/-- A zero squared distance means the two triples are equal. -/
theorem sqDist_eq_zero_iff (a c : ℤ × ℤ × ℤ) : sqDist a c = 0 ↔ a = c := by
  obtain ⟨a1, a2, a3⟩ := a
  obtain ⟨c1, c2, c3⟩ := c
  unfold sqDist
  constructor
  · intro h
    have q1 : (a1 - c1) ^ 2 = 0 := by nlinarith [sq_nonneg (a1 - c1), sq_nonneg (a2 - c2), sq_nonneg (a3 - c3)]
    have q2 : (a2 - c2) ^ 2 = 0 := by nlinarith [sq_nonneg (a1 - c1), sq_nonneg (a2 - c2), sq_nonneg (a3 - c3)]
    have q3 : (a3 - c3) ^ 2 = 0 := by nlinarith [sq_nonneg (a1 - c1), sq_nonneg (a2 - c2), sq_nonneg (a3 - c3)]
    have p1 : a1 = c1 := by nlinarith [sq_nonneg (a1 - c1)]
    have p2 : a2 = c2 := by nlinarith [sq_nonneg (a2 - c2)]
    have p3 : a3 = c3 := by nlinarith [sq_nonneg (a3 - c3)]
    simp [p1, p2, p3]
  · intro h
    injection h with h1 h23
    injection h23 with h2 h3
    subst h1; subst h2; subst h3
    ring

/-- An already-parsed in-range channel array is converted to its own YUV. -/
theorem snapSourceYUV_arr (c : ℚ × ℚ × ℚ) :
    snapSourceYUV (colorInput c) = some (yuvCore c) := by
  simp [snapSourceYUV, colorInput, cleanTriple, rgbToYUV]

/-! ## Claim theorems: `snapColor` nearest matching -/

/-- When every scanned distance beats the initial `lowestValue`, the scan
returns the first index of the minimum distance. -/
theorem minLoopP_argmin (ql : List ℤ) (h0 : ql ≠ [])
    (hall : ∀ j, (hj : j < ql.length) → ql[j] < 1000000) :
    ∃ hlt : (minLoopP (ql.map some) 0 (0, 1000000)).1 < ql.length,
      (minLoopP (ql.map some) 0 (0, 1000000)).2 =
        ql[(minLoopP (ql.map some) 0 (0, 1000000)).1] ∧
      (∀ j, (hj : j < ql.length) →
        ql[(minLoopP (ql.map some) 0 (0, 1000000)).1] ≤ ql[j]) ∧
      ∀ j, (hj : j < ql.length) → j < (minLoopP (ql.map some) 0 (0, 1000000)).1 →
        ql[(minLoopP (ql.map some) 0 (0, 1000000)).1] < ql[j] := by
  obtain ⟨I1, I2, I3, I4⟩ := minLoopP_spec ql 0 0 1000000 (le_refl 0)
  have h0len : 0 < ql.length := List.length_pos.2 h0
  have hlt2 : (minLoopP (ql.map some) 0 (0, 1000000)).2 < 1000000 :=
    lt_of_le_of_lt (by simpa [List.get_eq_getElem] using I2 0 h0len) (hall 0 h0len)
  rcases I3 with ⟨_, h2⟩ | ⟨j, hj, h1, h2, _⟩
  · rw [h2] at hlt2
    omega
  · have h1' : (minLoopP (ql.map some) 0 (0, 1000000)).1 = j := by omega
    subst h1'
    have hlt : (minLoopP (ql.map some) 0 (0, 1000000)).1 < ql.length := hj
    have hval : (minLoopP (ql.map some) 0 (0, 1000000)).2 =
        ql[(minLoopP (ql.map some) 0 (0, 1000000)).1] :=
      h2.trans (List.get_eq_getElem ql _)
    refine ⟨hlt, hval, ?_, ?_⟩
    · intro j' hj'
      rw [← hval]
      simpa [List.get_eq_getElem] using I2 j' hj'
    · intro j' hj' hjlt
      rw [← hval]
      simpa [List.get_eq_getElem] using I4 j' hj' (by omega)

/-- The squared YUV distances from the source to the (sliced) palette, in
palette order. -/
def entryDistList (pal : List ColorData) (limit : ℕ) (src : ℚ × ℚ × ℚ) : List ℤ :=
  (slicedColors pal limit).map (fun e => sqDist (e.yuv.getD (0, 0, 0)) (yuvCore src))

/-- On a palette of valid entries, `snapColor` is the scan of the squared
distance list. -/
theorem snapColor_eq_argmin (pal : List ColorData) (limit : ℕ) (source : SnapInput)
    (src : ℚ × ℚ × ℚ) (hsrc : snapSourceYUV source = some (yuvCore src))
    (hval : ∀ e ∈ slicedColors pal limit, e.yuv ≠ none) :
    snapColor pal source limit =
      (minLoopP ((entryDistList pal limit src).map some) 0 (0, 1000000)).1 := by
  simp only [snapColor]
  rw [hsrc]
  congr 2
  rw [entryDistList, List.map_map]
  apply List.map_congr_left
  intro e he
  cases hy : e.yuv with
  | none => exact absurd hy (hval e he)
  | some y => simp [distYUV, hy]

/-- Claim C3: over a palette of real (in-range) colors and an in-range RGB
source, `snapColor` returns an index into the first `limit` palette entries
(all of them when no limit is given) whose YUV squared distance to the source
is minimal, with every strictly earlier entry strictly farther (ties broken
toward the lowest index); in particular the result is always `< limit` when a
limit is given. -/
theorem snapColor_nearest (pal : List ColorData) (limit : ℕ) (r g b : ℚ)
    (hr : 0 ≤ r ∧ r ≤ 255) (hg : 0 ≤ g ∧ g ≤ 255) (hb : 0 ≤ b ∧ b ≤ 255)
    (hne : slicedColors pal limit ≠ [])
    (hval : ∀ e ∈ slicedColors pal limit, yuvInRange e.yuv = true) :
    ∃ hlt : snapColor pal (colorInput (r, g, b)) limit < (slicedColors pal limit).length,
      (0 < limit → snapColor pal (colorInput (r, g, b)) limit < limit) ∧
      ∀ j, (hj : j < (slicedColors pal limit).length) → ∀ yi yj : ℤ × ℤ × ℤ,
        ((slicedColors pal limit)[snapColor pal (colorInput (r, g, b)) limit]).yuv
          = some yi →
        ((slicedColors pal limit)[j]).yuv = some yj →
        sqDist yi (yuvCore (r, g, b)) ≤ sqDist yj (yuvCore (r, g, b)) ∧
        (j < snapColor pal (colorInput (r, g, b)) limit →
          sqDist yi (yuvCore (r, g, b)) < sqDist yj (yuvCore (r, g, b))) := by
  have hyuv : ∀ e ∈ slicedColors pal limit,
      ∃ y, e.yuv = some y ∧ yuvInRange (some y) = true := by
    intro e he
    have h := hval e he
    cases hy : e.yuv with
    | none => rw [hy] at h; simp [yuvInRange] at h
    | some y => exact ⟨y, rfl, by rw [hy] at h; exact h⟩
  have hsnap := snapColor_eq_argmin pal limit (colorInput (r, g, b)) (r, g, b)
    (snapSourceYUV_arr (r, g, b))
    (fun e he => by obtain ⟨y, hy, _⟩ := hyuv e he; simp [hy])
  have hlenq : (entryDistList pal limit (r, g, b)).length =
      (slicedColors pal limit).length := by
    simp [entryDistList]
  have hgetq : ∀ j, (hj : j < (slicedColors pal limit).length) → ∀ y : ℤ × ℤ × ℤ,
      ((slicedColors pal limit)[j]).yuv = some y →
      ∀ hjq : j < (entryDistList pal limit (r, g, b)).length,
      (entryDistList pal limit (r, g, b))[j] = sqDist y (yuvCore (r, g, b)) := by
    intro j hj y hy hjq
    simp only [entryDistList, List.getElem_map]
    rw [hy]
    rfl
  have hne' : entryDistList pal limit (r, g, b) ≠ [] := by
    intro hcontra
    apply hne
    have := congrArg List.length hcontra
    rw [hlenq] at this
    exact List.eq_nil_of_length_eq_zero this
  have hall : ∀ j, (hj : j < (entryDistList pal limit (r, g, b)).length) →
      (entryDistList pal limit (r, g, b))[j] < 1000000 := by
    intro j hj
    have hj' : j < (slicedColors pal limit).length := by rwa [hlenq] at hj
    obtain ⟨y, hy, hyr⟩ := hyuv _ (List.getElem_mem hj')
    rw [hgetq j hj' y hy hj]
    exact sqDist_lt_initial y _ hyr (yuvCore_range r g b hr hg hb)
  obtain ⟨hltq, hvq, hminq, hstrq⟩ := minLoopP_argmin _ hne' hall
  have hlt : snapColor pal (colorInput (r, g, b)) limit <
      (slicedColors pal limit).length := by
    rw [hsnap, ← hlenq]
    exact hltq
  refine ⟨hlt, ?_, ?_⟩
  · intro hlim
    have hle : (slicedColors pal limit).length ≤ limit := by
      simp only [slicedColors, Nat.pos_iff_ne_zero.1 hlim, if_false]
      simp [List.length_take]
    omega
  · intro j hj yi yj hyi hyj
    have hjq : j < (entryDistList pal limit (r, g, b)).length := by rwa [hlenq]
    have hiq : snapColor pal (colorInput (r, g, b)) limit <
        (entryDistList pal limit (r, g, b)).length := by rwa [hlenq]
    have hvi := hgetq _ hlt yi hyi hiq
    have hvj := hgetq j hj yj hyj hjq
    have hcongr : ∀ (l : List ℤ) (i₁ i₂ : ℕ), (h₁ : i₁ < l.length) → (h₂ : i₂ < l.length) →
        i₁ = i₂ → l[i₁] = l[i₂] := by
      intro l i₁ i₂ h₁ h₂ he
      subst he
      rfl
    have hswap : (entryDistList pal limit (r, g, b))[(minLoopP
        ((entryDistList pal limit (r, g, b)).map some) 0 (0, 1000000)).1] =
        sqDist yi (yuvCore (r, g, b)) :=
      (hcongr _ _ _ hltq hiq hsnap.symm).trans hvi
    constructor
    · calc sqDist yi (yuvCore (r, g, b))
          = (entryDistList pal limit (r, g, b))[(minLoopP
              ((entryDistList pal limit (r, g, b)).map some) 0 (0, 1000000)).1] := hswap.symm
        _ ≤ (entryDistList pal limit (r, g, b))[j] := hminq j hjq
        _ = sqDist yj (yuvCore (r, g, b)) := hvj
    · intro hjlt
      calc sqDist yi (yuvCore (r, g, b))
          = (entryDistList pal limit (r, g, b))[(minLoopP
              ((entryDistList pal limit (r, g, b)).map some) 0 (0, 1000000)).1] := hswap.symm
        _ < (entryDistList pal limit (r, g, b))[j] :=
            hstrq j hjq (by rw [← hsnap]; exact hjlt)
        _ = sqDist yj (yuvCore (r, g, b)) := hvj

/-- Witness for C3: a 4-entry palette with limit 2 and an in-range source. -/
theorem snapColor_nearest_witness :
    ∃ hlt : snapColor pancakeShades (colorInput (10, 20, 30)) 2 <
        (slicedColors pancakeShades 2).length,
      (0 < 2 → snapColor pancakeShades (colorInput (10, 20, 30)) 2 < 2) ∧
      ∀ j, (hj : j < (slicedColors pancakeShades 2).length) → ∀ yi yj : ℤ × ℤ × ℤ,
        ((slicedColors pancakeShades 2)[snapColor pancakeShades
            (colorInput (10, 20, 30)) 2]).yuv = some yi →
        ((slicedColors pancakeShades 2)[j]).yuv = some yj →
        sqDist yi (yuvCore (10, 20, 30)) ≤ sqDist yj (yuvCore (10, 20, 30)) ∧
        (j < snapColor pancakeShades (colorInput (10, 20, 30)) 2 →
          sqDist yi (yuvCore (10, 20, 30)) < sqDist yj (yuvCore (10, 20, 30))) :=
  snapColor_nearest pancakeShades 2 10 20 30 (by norm_num) (by norm_num) (by norm_num)
    (by
      apply List.ne_nil_of_length_pos
      simp [slicedColors, pancakeShades, snapColorSetup])
    (by
      intro e he
      simp only [slicedColors, pancakeShades, snapColorSetup] at he
      simp +decide [renderColorData, colorStringToArray, execFullHex, expandShorthand,
        isHexChar, hexPairVal, hexDigitVal, hasSub, leadMatch, hasChar, cleanTriple,
        rgbToYUV, yuvCore, List.enum] at he
      rcases he with he | he <;>
        rw [he] <;>
        simp [yuvInRange] <;>
        norm_num)

/-! ## Claim theorems: matching a palette's own color (C9) -/

/-- A hex color string that parses to a full three-channel array. -/
def cleanParse (c : String) : Bool :=
  match colorStringToArray (some c) with
  | some (some _ :: some _ :: some _ :: []) => true
  | _ => false

/-- A successful `cleanParse` exposes the parsed channels. -/
theorem cleanParse_spec (c : String) (h : cleanParse c = true) :
    ∃ r g b : ℚ, colorStringToArray (some c) = some [some r, some g, some b] := by
  unfold cleanParse at h
  rcases hp : colorStringToArray (some c) with _ | l
  · rw [hp] at h
    simp at h
  · rw [hp] at h
    rcases l with _ | ⟨o₁, l₁⟩
    · simp at h
    · rcases o₁ with _ | r
      · simp at h
      · rcases l₁ with _ | ⟨o₂, l₂⟩
        · simp at h
        · rcases o₂ with _ | g
          · simp at h
          · rcases l₂ with _ | ⟨o₃, l₃⟩
            · simp at h
            · rcases o₃ with _ | b
              · simp at h
              · rcases l₃ with _ | ⟨o₄, l₄⟩
                · exact ⟨r, g, b, rfl⟩
                · simp at h

/-- `renderColorData` stores the YUV of the parsed channels. -/
theorem renderColorData_yuv (c name : String) (r g b : ℚ)
    (hp : colorStringToArray (some c) = some [some r, some g, some b]) :
    (renderColorData c name).yuv = some (yuvCore (r, g, b)) := by
  simp [renderColorData, hp, cleanTriple, rgbToYUV]

/-- A parseable string source is converted to the YUV of its channels. -/
theorem snapSourceYUV_str (c : String) (r g b : ℚ)
    (hp : colorStringToArray (some c) = some [some r, some g, some b]) :
    snapSourceYUV (.str c) = some (yuvCore (r, g, b)) := by
  simp [snapSourceYUV, hp, cleanTriple, rgbToYUV]

/-- `snapColorSetup` builds one entry per color, in order. -/
theorem snapColorSetup_length (colors : List String) :
    (snapColorSetup colors).length = colors.length := by
  simp [snapColorSetup]

/-- The `k`-th palette entry is the rendered `k`-th color. -/
theorem snapColorSetup_getElem (colors : List String) (k : ℕ)
    (hk : k < colors.length) (hk2 : k < (snapColorSetup colors).length) :
    (snapColorSetup colors)[k] =
      renderColorData colors[k] ("color" ++ toString k) := by
  simp [snapColorSetup]

/-- Claim C9: on a palette built by `snapColorSetup` from parseable hex colors
with pairwise distinct YUV representations, matching the palette's own `k`-th
reference color (with no limit) returns `k`, and the source and entry share
the same YUV, at squared distance exactly 0. -/
theorem snapColorSetup_self_match (colors : List String) (k : ℕ)
    (hk : k < colors.length)
    (hparse : ∀ c ∈ colors, cleanParse c = true)
    (hdist : ((snapColorSetup colors).map (fun e => e.yuv)).Nodup) :
    snapColor (snapColorSetup colors) (.str colors[k]) 0 = k ∧
    ∃ y : ℤ × ℤ × ℤ, ∃ hk' : k < (snapColorSetup colors).length,
      ((snapColorSetup colors)[k]).yuv = some y ∧
      snapSourceYUV (.str colors[k]) = some y ∧
      sqDist y y = 0 := by
  have hk' : k < (snapColorSetup colors).length := by
    rw [snapColorSetup_length]
    exact hk
  -- every entry's YUV is the rendered YUV of its (parseable) color
  have hentry : ∀ j, (hjc : j < colors.length) →
      (hj : j < (snapColorSetup colors).length) →
      ∃ r g b : ℚ,
        colorStringToArray (some colors[j]) = some [some r, some g, some b] ∧
        ((snapColorSetup colors)[j]).yuv = some (yuvCore (r, g, b)) := by
    intro j hj' hj
    obtain ⟨r, g, b, hp⟩ := cleanParse_spec colors[j]
      (hparse colors[j] (List.getElem_mem hj'))
    exact ⟨r, g, b, hp, by rw [snapColorSetup_getElem colors j hj' hj]
                           exact renderColorData_yuv _ _ r g b hp⟩
  obtain ⟨rk, gk, bk, hpk, hyk⟩ := hentry k hk hk'
  have hsrc : snapSourceYUV (.str colors[k]) = some (yuvCore (rk, gk, bk)) :=
    snapSourceYUV_str _ rk gk bk hpk
  have hsl : slicedColors (snapColorSetup colors) 0 = snapColorSetup colors := rfl
  have hvalid : ∀ e ∈ slicedColors (snapColorSetup colors) 0, e.yuv ≠ none := by
    intro e he
    rw [hsl] at he
    obtain ⟨j, hj, hje⟩ := List.mem_iff_getElem.1 he
    obtain ⟨r, g, b, _, hy⟩ := hentry j (by rwa [snapColorSetup_length] at hj) hj
    rw [← hje, hy]
    simp
  have hsnap := snapColor_eq_argmin (snapColorSetup colors) 0 (.str colors[k])
    (rk, gk, bk) hsrc hvalid
  have hlenq : (entryDistList (snapColorSetup colors) 0 (rk, gk, bk)).length =
      (snapColorSetup colors).length := by
    simp [entryDistList, hsl]
  have hgetq : ∀ j, (hj : j < (snapColorSetup colors).length) →
      ∀ hjq : j < (entryDistList (snapColorSetup colors) 0 (rk, gk, bk)).length,
      ∀ y : ℤ × ℤ × ℤ, ((snapColorSetup colors)[j]).yuv = some y →
      (entryDistList (snapColorSetup colors) 0 (rk, gk, bk))[j] =
        sqDist y (yuvCore (rk, gk, bk)) := by
    intro j hj hjq y hy
    simp only [entryDistList, hsl, List.getElem_map]
    rw [hy]
    rfl
  have hkq : k < (entryDistList (snapColorSetup colors) 0 (rk, gk, bk)).length := by
    rwa [hlenq]
  have hqk : (entryDistList (snapColorSetup colors) 0 (rk, gk, bk))[k] = 0 := by
    rw [hgetq k hk' hkq (yuvCore (rk, gk, bk)) hyk]
    exact (sqDist_eq_zero_iff _ _).2 rfl
  obtain ⟨I1, I2, I3, I4⟩ :=
    minLoopP_spec (entryDistList (snapColorSetup colors) 0 (rk, gk, bk)) 0 0 1000000
      (le_refl 0)
  have hle0 : (minLoopP ((entryDistList (snapColorSetup colors) 0 (rk, gk, bk)).map some)
      0 (0, 1000000)).2 ≤ 0 := by
    have := I2 k hkq
    rwa [List.get_eq_getElem, hqk] at this
  rcases I3 with ⟨_, h2⟩ | ⟨j, hj, h1, h2, _⟩
  · rw [h2] at hle0
    omega
  · have hj' : j < (snapColorSetup colors).length := by rwa [hlenq] at hj
    obtain ⟨rj, gj, bj, _, hyj⟩ :=
      hentry j (by rwa [snapColorSetup_length] at hj') hj'
    have hqj : (entryDistList (snapColorSetup colors) 0 (rk, gk, bk))[j] =
        sqDist (yuvCore (rj, gj, bj)) (yuvCore (rk, gk, bk)) :=
      hgetq j hj' hj (yuvCore (rj, gj, bj)) hyj
    have hzero : sqDist (yuvCore (rj, gj, bj)) (yuvCore (rk, gk, bk)) = 0 := by
      have hval2 : (minLoopP ((entryDistList (snapColorSetup colors) 0
          (rk, gk, bk)).map some) 0 (0, 1000000)).2 =
          sqDist (yuvCore (rj, gj, bj)) (yuvCore (rk, gk, bk)) := by
        rw [h2, List.get_eq_getElem]
        exact hqj
      have hnn := sqDist_nonneg (yuvCore (rj, gj, bj)) (yuvCore (rk, gk, bk))
      rw [hval2] at hle0
      omega
  -- identical YUVs force identical indices via Nodup
    have hyy : yuvCore (rj, gj, bj) = yuvCore (rk, gk, bk) :=
      (sqDist_eq_zero_iff _ _).1 hzero
    have hjk : j = k := by
      have hmlen : j < ((snapColorSetup colors).map (fun e => e.yuv)).length := by
        simpa using hj'
      have hmlenk : k < ((snapColorSetup colors).map (fun e => e.yuv)).length := by
        simpa using hk'
      have hmapj : ((snapColorSetup colors).map (fun e => e.yuv))[j] =
          some (yuvCore (rj, gj, bj)) := by
        rw [List.getElem_map]
        exact hyj
      have hmapk : ((snapColorSetup colors).map (fun e => e.yuv))[k] =
          some (yuvCore (rk, gk, bk)) := by
        rw [List.getElem_map]
        exact hyk
      have heq : ((snapColorSetup colors).map (fun e => e.yuv)).get ⟨j, hmlen⟩ =
          ((snapColorSetup colors).map (fun e => e.yuv)).get ⟨k, hmlenk⟩ := by
        rw [List.get_eq_getElem, List.get_eq_getElem]
        rw [hmapj, hmapk, hyy]
      have := (List.Nodup.get_inj_iff hdist).1 heq
      exact congrArg Fin.val this
    refine ⟨?_, yuvCore (rk, gk, bk), hk', hyk, hsrc,
      (sqDist_eq_zero_iff _ _).2 rfl⟩
    rw [hsnap]
    omega

/-- Witness for C9: a two-color palette matched against its own second color. -/
theorem snapColorSetup_self_match_witness :
    snapColor (snapColorSetup ["#000000", "#FFFFFF"])
      (.str (["#000000", "#FFFFFF"] : List String)[1]) 0 = 1 :=
  (snapColorSetup_self_match ["#000000", "#FFFFFF"] 1 (by norm_num)
    (by decide)
    (by
      simp +decide [snapColorSetup, renderColorData, colorStringToArray, execFullHex,
        expandShorthand, isHexChar, hexPairVal, hexDigitVal, hasSub, leadMatch, hasChar,
        cleanTriple, rgbToYUV, yuvCore, List.enum]
      norm_num)).1

/-! ## Claim theorems: `colorStringToArray` (C8) -/

/-- Claim C8 (amended): `colorStringToArray` parses the `rgb(r,g,b)` textual
form and the 3- or 6-digit hexadecimal forms (shorthand expanded by digit
doubling); it returns absent for non-string input and for every string
containing neither the substring `rgb` nor a `#` character (and for
`#`-strings failing hex validation) — but a string merely containing `rgb`
anywhere is run through the rgb parse unconditionally (slice 4 leading and 1
trailing characters, `Number` each comma-separated piece), so a malformed
rgb-like string such as `rgba(0,0,0,0)` yields a malformed array (with a
`NaN` entry) instead of absent. -/
theorem colorStringToArray_spec :
    (∀ s : String, hasSub "rgb".toList s.toList = false →
      hasChar '#' s.toList = false → colorStringToArray (some s) = none) ∧
    colorStringToArray none = none ∧
    colorStringToArray (some "#FFFFFF") = some [some 255, some 255, some 255] ∧
    colorStringToArray (some "#03F") = some [some 0, some 51, some 255] ∧
    colorStringToArray (some "rgb(0,51,255)") = some [some 0, some 51, some 255] ∧
    colorStringToArray (some "not-a-color") = none ∧
    colorStringToArray (some "#GHI") = none ∧
    colorStringToArray (some "rgba(0,0,0,0)") = some [none, some 0, some 0, some 0] := by
  refine ⟨?_, rfl, ?_, ?_, ?_, by decide, by decide, ?_⟩
  · intro s h1 h2
    rw [show ("rgb".toList) = ['r', 'g', 'b'] from rfl,
        show s.toList = s.data from rfl] at h1
    rw [show s.toList = s.data from rfl] at h2
    simp [colorStringToArray, h1, h2]
  · simp +decide [colorStringToArray, execFullHex, expandShorthand, isHexChar,
      hexPairVal, hexDigitVal, hasSub, leadMatch, hasChar]
  · simp +decide [colorStringToArray, execFullHex, expandShorthand, isHexChar,
      hexPairVal, hexDigitVal, hasSub, leadMatch, hasChar]
  · (simp +decide [colorStringToArray, hasSub, leadMatch, splitOnChar, jsNumber,
      digitsVal, allDigits]) <;> norm_num
  · simp +decide [colorStringToArray, hasSub, leadMatch, splitOnChar, jsNumber,
      digitsVal, allDigits]

/-- Witness for C8 (amended) on a plain string with neither `rgb` nor `#`. -/
theorem colorStringToArray_spec_witness :
    colorStringToArray (some "xyz") = none :=
  colorStringToArray_spec.1 "xyz" (by decide) (by decide)

/-- Counterexample to C8 as stated: `"rgba(0,0,0,0)"` is neither an
`rgb(r,g,b)` textual form nor a hexadecimal form, yet the parse returns a
(malformed) array instead of absent. -/
theorem colorStringToArray_claim_cex :
    colorStringToArray (some "rgba(0,0,0,0)") = some [none, some 0, some 0, some 0] ∧
    colorStringToArray (some "rgba(0,0,0,0)") ≠ none := by
  have h : colorStringToArray (some "rgba(0,0,0,0)") =
      some [none, some 0, some 0, some 0] := by
    simp +decide [colorStringToArray, hasSub, leadMatch, splitOnChar, jsNumber,
      digitsVal, allDigits]
  exact ⟨h, by rw [h]; simp⟩

end PancakePainter
